import Mathlib

/-!
Shallow embedding of the core of the red_energy Home Assistant integration
(custom_components/red_energy), covering:

* data_validation.py — customer / properties / services / usage validation;
* api.py — token state and the ensure-valid-token / refresh logic;
* error_recovery.py — the recovery-action loop and the circuit breaker;
* coordinator.py — the per-cycle usage-fetch loop of _async_update_data.

Python numbers are modelled as exact rationals, Python None-able values as
Option, raised exceptions as Except.  Python falsiness of strings (empty
string) and of absent values is modelled explicitly at each use site,
following the source.
-/

namespace RedEnergy

/-- Round-half-to-even of a rational to an integer, the behaviour of
Python round on exact decimal values. -/
def rhe (q : ℚ) : ℤ :=
  if q - Int.floor q < 1/2 then Int.floor q
  else if 1/2 < q - Int.floor q then Int.floor q + 1
  else if Int.floor q % 2 = 0 then Int.floor q else Int.floor q + 1

/-- Python round(x, n) on exact rationals: round-half-to-even at n decimal
places. -/
def roundDp (n : ℕ) (q : ℚ) : ℚ := (rhe (q * 10 ^ n) : ℚ) / 10 ^ n

/-- Python str.strip(): drop leading and trailing whitespace.  Defined
over the character list so that it evaluates by definitional reduction. -/
def pyStrip (s : String) : String :=
  String.mk (((s.toList.dropWhile Char.isWhitespace).reverse.dropWhile Char.isWhitespace).reverse)

/-- Python str.lower() (ASCII case folding). -/
def pyLower (s : String) : String :=
  String.mk (s.toList.map Char.toLower)

/-- data_validation.DataValidationError, carrying its message. -/
inductive DataValidationError where
  | dve (msg : String)
  deriving Repr, DecidableEq

/-! ### validate_usage_data (data_validation.py lines 181-235) -/

/-- One half-hour interval of a raw usage entry.  Absent keys are None
(the Python code reads them with .get(key, 0)). -/
structure RawInterval where
  consumptionKwh : Option ℚ
  consumptionDollarIncGst : Option ℚ
  deriving Repr, DecidableEq

/-- One raw usage entry (one day) of the API array. -/
structure RawDay where
  usageDate : Option String
  halfHours : List RawInterval
  deriving Repr, DecidableEq

/-- The raw usage payload: the isinstance(data, list) check distinguishes a
JSON array from any other shape. -/
inductive UsagePayload where
  | arr (entries : List RawDay)
  | notList
  deriving Repr, DecidableEq

/-- A validated daily usage entry. -/
structure UsageEntry where
  date : String
  usage : ℚ
  cost : ℚ
  unit : String
  deriving Repr, DecidableEq

/-- The validated usage record returned by validate_usage_data. -/
structure UsageRecord where
  consumer_number : String
  from_date : String
  to_date : String
  usage_data : List UsageEntry
  total_usage : ℚ
  total_cost : ℚ
  deriving Repr, DecidableEq

/-- Sum of consumptionKwh over the halfHours of one day (missing values
read as 0, as in interval.get with default 0). -/
def dayUsage (d : RawDay) : ℚ :=
  (d.halfHours.map (fun i => i.consumptionKwh.getD 0)).sum

/-- Sum of consumptionDollarIncGst over the halfHours of one day. -/
def dayCost (d : RawDay) : ℚ :=
  (d.halfHours.map (fun i => i.consumptionDollarIncGst.getD 0)).sum

/-- The usageDate of an entry when it is present and non-empty (Python
truthiness of the string), else none: entries without it are skipped. -/
def survivorDate (d : RawDay) : Option String :=
  match d.usageDate with
  | none => none
  | some s => if s = "" then none else some s

/-- Accumulator of the loop in validate_usage_data. -/
structure UsageAcc where
  entries : List UsageEntry
  totalU : ℚ
  totalC : ℚ
  fromD : Option String
  toD : Option String
  deriving Repr, DecidableEq

/-- One iteration of the validation loop over raw entries. -/
def stepDay (acc : UsageAcc) (d : RawDay) : UsageAcc :=
  match survivorDate d with
  | none => acc
  | some s =>
    let fromD := match acc.fromD with
      | none => some s
      | some f => if s < f then some s else some f
    let toD := match acc.toD with
      | none => some s
      | some t => if t < s then some s else some t
    let du := dayUsage d
    let dc := dayCost d
    { entries := acc.entries ++ [⟨s, roundDp 3 du, roundDp 2 dc, "kWh"⟩],
      totalU := acc.totalU + du,
      totalC := acc.totalC + dc,
      fromD := fromD,
      toD := toD }

/-- data_validation.validate_usage_data.  The consumer_number argument
defaults to the empty string at every call site in the coordinator. -/
def validate_usage_data (data : UsagePayload) (consumer_number : String) :
    Except DataValidationError UsageRecord :=
  match data with
  | .notList => .error (.dve "Usage data must be a list (API returns array directly)")
  | .arr days =>
    let acc := days.foldl stepDay ⟨[], 0, 0, none, none⟩
    .ok { consumer_number := consumer_number,
          from_date := acc.fromD.getD "",
          to_date := acc.toD.getD "",
          usage_data := acc.entries,
          total_usage := roundDp 2 acc.totalU,
          total_cost := roundDp 2 acc.totalC }

/-! ### validate_usage_entry (data_validation.py lines 238-278) -/

/-- A Python value handed to float(): either an exact number or something
float() rejects with ValueError/TypeError. -/
inductive PyNum where
  | num (q : ℚ)
  | notNum
  deriving Repr, DecidableEq

/-- Leap-year rule of the Gregorian calendar, as used by datetime. -/
def isLeap (y : ℕ) : Bool :=
  (y % 4 == 0 && y % 100 != 0) || y % 400 == 0

/-- Days in a month, as validated by the datetime constructor. -/
def daysInMonth (y m : ℕ) : ℕ :=
  if m = 2 then (if isLeap y then 29 else 28)
  else if m = 4 ∨ m = 6 ∨ m = 9 ∨ m = 11 then 30
  else 31

/-- Split a character list at every occurrence of a separator. -/
def splitOnChar (c : Char) : List Char → List (List Char)
  | [] => [[]]
  | x :: xs =>
    let r := splitOnChar c xs
    if x = c then [] :: r
    else match r with
      | [] => [[x]]
      | h :: t => (x :: h) :: t

/-- Decimal digit characters to their numeric value. -/
def digitsToNat (l : List Char) : ℕ :=
  l.foldl (fun n c => 10 * n + (c.toNat - 48)) 0

/-- Model of datetime.strptime(s, %Y-%m-%d) succeeding: a 4-digit year,
1-2 digit month and day, and a calendar-valid date. -/
def validDate (s : String) : Bool :=
  match splitOnChar (Char.ofNat 45) s.toList with
  | [y, m, d] =>
    (y.all Char.isDigit && y.length == 4 &&
     m.all Char.isDigit && (m.length == 1 || m.length == 2) &&
     d.all Char.isDigit && (d.length == 1 || d.length == 2)) &&
    (let yn := digitsToNat y
     let mn := digitsToNat m
     let dn := digitsToNat d
     decide (1 ≤ yn) && decide (1 ≤ mn) && decide (mn ≤ 12) &&
     decide (1 ≤ dn) && decide (dn ≤ daysInMonth yn mn))
  | _ => false

/-- Input of validate_usage_entry: a dict whose keys may be absent
(none), read via .get with defaults. -/
structure RawUsageEntryIn where
  date : Option String
  usage : Option PyNum
  cost : Option PyNum
  unit : Option String
  deriving Repr, DecidableEq

/-- data_validation.validate_usage_entry: requires a parseable date,
numeric usage and cost, and clamps negative usage/cost to zero before
rounding. -/
def validate_usage_entry (e : RawUsageEntryIn) : Except DataValidationError UsageEntry :=
  match e.date with
  | none => .error (.dve "Usage entry missing date")
  | some ds =>
    if ds = "" then .error (.dve "Usage entry missing date")
    else if !validDate ds then .error (.dve ("Invalid date format: " ++ ds))
    else
      match e.usage.getD (.num 0) with
      | .notNum => .error (.dve "Invalid usage value")
      | .num u =>
        match e.cost.getD (.num 0) with
        | .notNum => .error (.dve "Invalid cost value")
        | .num c =>
          let u2 := if u < 0 then 0 else u
          let c2 := if c < 0 then 0 else c
          .ok ⟨ds, roundDp 3 u2, roundDp 2 c2, e.unit.getD "kWh"⟩

/-! ### validate_customer_data (data_validation.py lines 16-52) -/

/-- Python exceptions observable from validate_customer_data: the
integration exception and a raw KeyError from subscripting a dict. -/
inductive PyError where
  | dve (msg : String)
  | keyError (key : String)
  deriving Repr, DecidableEq

/-- One element of the raw accounts list; keys may be absent. -/
structure RawAccount where
  customerNumber : Option Int
  accountNumber : Option Int
  deriving Repr, DecidableEq

/-- The raw customer dict; each field is none when the key is absent. -/
structure RawCustomer where
  customerNumber : Option Int
  name : Option String
  email : Option String
  accounts : Option (List RawAccount)
  phone : Option String
  deriving Repr, DecidableEq

/-- The raw customer payload (isinstance dict check). -/
inductive CustomerPayload where
  | dict (c : RawCustomer)
  | notDict
  deriving Repr, DecidableEq

/-- The validated customer record.  The accounts field holds the raw list
(Python stores its str() image); account_ids joins the two identifiers
with a dot. -/
structure Customer where
  id : String
  customerNumber : String
  name : String
  email : String
  accounts : List RawAccount
  account_ids : List String
  phone : Option String
  deriving Repr, DecidableEq

/-- account_ids comprehension: account[customerNumber] and
account[accountNumber] are subscripted directly, so an absent key raises
KeyError (customerNumber is evaluated first). -/
def accountIds (l : List RawAccount) : Except PyError (List String) :=
  l.mapM (fun a =>
    match a.customerNumber with
    | none => .error (.keyError "customerNumber")
    | some c =>
      match a.accountNumber with
      | none => .error (.keyError "accountNumber")
      | some n => .ok (toString c ++ "." ++ toString n))

/-- data_validation.validate_customer_data.  The required-fields loop
raises DataValidationError only for customerNumber and substitutes
defaults for name and email; for a missing accounts key it logs a warning
but sets no default, so the later data[accounts] subscript raises
KeyError. -/
def validate_customer_data (p : CustomerPayload) : Except PyError Customer :=
  match p with
  | .notDict => .error (.dve "Customer data must be a dictionary")
  | .dict data =>
    match data.customerNumber with
    | none => .error (.dve "Missing required customer field: customerNumber")
    | some cn =>
      let name := data.name.getD "Red Energy Customer"
      let email := data.email.getD "unknown@redenergy.com.au"
      match data.accounts with
      | none => .error (.keyError "accounts")
      | some accts =>
        match accountIds accts with
        | .error e => .error e
        | .ok ids =>
          .ok { id := toString cn,
                customerNumber := toString cn,
                name := pyStrip name,
                email := pyLower (pyStrip email),
                accounts := accts,
                account_ids := ids,
                phone := data.phone.map pyStrip }

/-! ### validate_properties_data / validate_single_property / validate_address
(data_validation.py lines 55-140) -/

/-- One raw consumer of a property; keys may be absent. -/
structure RawConsumer where
  utility : Option String
  consumerNumber : Option Int
  status : Option String
  nmi : Option String
  meterType : Option String
  deriving Repr, DecidableEq

/-- Nested displayAddresses object. -/
structure RawDisplayAddresses where
  shortForm : Option String
  deriving Repr, DecidableEq

/-- The raw address dict. -/
structure RawAddress where
  street : Option String
  suburb : Option String
  city : Option String
  state : Option String
  postcode : Option String
  displayAddress : Option String
  displayAddresses : Option RawDisplayAddresses
  deriving Repr, DecidableEq

/-- The empty raw address dict, used as the .get default. -/
def emptyRawAddress : RawAddress := ⟨none, none, none, none, none, none, none⟩

/-- A raw property dict; keys may be absent. -/
structure RawProperty where
  propertyPhysicalNumber : Option Int
  accountNumber : Option Int
  address : Option RawAddress
  consumers : List RawConsumer
  deriving Repr, DecidableEq

/-- One element of the raw properties list (isinstance dict check). -/
inductive PropElem where
  | obj (p : RawProperty)
  | notDict
  deriving Repr, DecidableEq

/-- The raw properties payload (isinstance list check). -/
inductive PropertiesPayload where
  | arr (l : List PropElem)
  | notList
  deriving Repr, DecidableEq

/-- A service entry as built from a consumer by validate_single_property. -/
structure Service where
  type : String
  consumer_number : String
  active : Bool
  nmi : String
  meter_type : String
  deriving Repr, DecidableEq

/-- The validated address record. -/
structure Address where
  street : String
  city : String
  state : String
  postcode : String
  display_address : String
  short_form : String
  deriving Repr, DecidableEq

/-- The validated property record. -/
structure Property where
  id : String
  prop_number : String
  name : String
  address : Address
  services : List Service
  account_ids : List String
  deriving Repr, DecidableEq

/-- Python truthiness fallback x or y for an optional string (None and
the empty string are falsy). -/
def orStr (a : Option String) (b : String) : String :=
  match a with
  | none => b
  | some s => if s = "" then b else s

/-- data_validation.validate_address (the caller already substituted the
empty dict for a non-dict value). -/
def validate_address (ad : RawAddress) : Address :=
  { street := pyStrip (ad.street.getD ""),
    city := pyStrip (match ad.suburb with
             | some s => s
             | none => ad.city.getD ""),
    state := pyStrip (ad.state.getD ""),
    postcode := pyStrip (ad.postcode.getD ""),
    display_address := pyStrip (ad.displayAddress.getD ""),
    short_form := pyStrip ((ad.displayAddresses.getD ⟨none⟩).shortForm.getD "") }

/-- The service built from one raw consumer inside
validate_single_property: utility code E maps to electricity, G to gas,
anything else passes through lower-cased; a missing consumerNumber
becomes str of the empty-string default, i.e. the empty string. -/
def consumerToService (c : RawConsumer) : Service :=
  let utility := c.utility.getD ""
  { type := if utility = "E" then "electricity"
            else if utility = "G" then "gas"
            else pyLower utility,
    consumer_number := match c.consumerNumber with
                       | some n => toString n
                       | none => "",
    active := c.status == some "ON",
    nmi := c.nmi.getD "",
    meter_type := c.meterType.getD "" }

/-- data_validation.validate_single_property.  The truthiness check
if not property_id rejects both an absent and a zero
propertyPhysicalNumber. -/
def validate_single_property (p : PropElem) : Except DataValidationError Property :=
  match p with
  | .notDict => .error (.dve "Property data must be a dictionary")
  | .obj data =>
    match data.propertyPhysicalNumber with
    | none => .error (.dve "Property missing required propertyPhysicalNumber field")
    | some pid =>
      if pid = 0 then .error (.dve "Property missing required propertyPhysicalNumber field")
      else
        let services := data.consumers.map consumerToService
        let ad := data.address.getD emptyRawAddress
        let pname := orStr (ad.displayAddresses.bind (fun x => x.shortForm))
                       (orStr ad.displayAddress ("Property " ++ toString pid))
        .ok { id := toString pid,
              prop_number := toString pid,
              name := pname,
              address := validate_address ad,
              services := services,
              account_ids := [match data.accountNumber with
                              | some n => toString n
                              | none => ""] }

/-- data_validation.validate_properties_data: non-list and empty payloads
are fatal; invalid elements are skipped; zero survivors is fatal. -/
def validate_properties_data (p : PropertiesPayload) : Except DataValidationError (List Property) :=
  match p with
  | .notList => .error (.dve "Properties data must be a list")
  | .arr [] => .error (.dve "No properties found in response")
  | .arr l =>
    let vs := l.filterMap (fun e => (validate_single_property e).toOption)
    if vs.isEmpty then .error (.dve "No valid properties after validation")
    else .ok vs

/-! ### validate_services / validate_single_service
(data_validation.py lines 143-178) -/

/-- A raw service dict for validate_single_service; consumer_number is
kept as an optional string (absent, empty, or a concrete value). -/
structure RawService where
  type : Option String
  consumer_number : Option String
  active : Option Bool
  deriving Repr, DecidableEq

/-- One element of a raw services list (isinstance dict check). -/
inductive ServElem where
  | obj (s : RawService)
  | notDict
  deriving Repr, DecidableEq

/-- A service validated by validate_single_service. -/
structure BasicService where
  type : String
  consumer_number : String
  active : Bool
  deriving Repr, DecidableEq

/-- data_validation.validate_single_service: the type must be electricity
or gas and the consumer_number must be truthy. -/
def validate_single_service (s : ServElem) : Except DataValidationError BasicService :=
  match s with
  | .notDict => .error (.dve "Service data must be a dictionary")
  | .obj d =>
    let st := pyLower (d.type.getD "")
    if st ≠ "electricity" ∧ st ≠ "gas" then
      .error (.dve ("Invalid service type: " ++ st))
    else
      match d.consumer_number with
      | none => .error (.dve "Service missing consumer_number")
      | some c =>
        if c = "" then .error (.dve "Service missing consumer_number")
        else .ok ⟨st, c, d.active.getD true⟩

/-- The raw services payload (isinstance list check). -/
inductive ServicesPayload where
  | arr (l : List ServElem)
  | notList
  deriving Repr, DecidableEq

/-- data_validation.validate_services: a non-list yields the empty list;
invalid elements are dropped; never raises. -/
def validate_services (p : ServicesPayload) : List BasicService :=
  match p with
  | .notList => []
  | .arr l => l.filterMap (fun e => (validate_single_service e).toOption)

/-! ### api.py — token state, _ensure_valid_token, _refresh_access_token -/

/-- api.py exceptions: RedEnergyAuthError is a subclass of
RedEnergyAPIError; both are caught by the coordinator per-service
handler. -/
inductive APIError where
  | auth (msg : String)
  | api (msg : String)
  deriving Repr, DecidableEq

/-- In-memory token state of RedEnergyAPI.  datetime values live on an
integer timeline (seconds). -/
structure TokenState where
  access_token : Option String
  refresh_token : Option String
  token_expires : Option ℤ
  deriving Repr, DecidableEq

/-- The token-endpoint response to the refresh POST.  When status200 is
false the body is an error payload; otherwise it carries the new tokens
(expires_in read with default 3600). -/
structure TokenResponse where
  status200 : Bool
  access_token : String
  refresh_token : Option String
  expires_in : Option ℤ
  deriving Repr, DecidableEq

/-- The remote environment a refresh interacts with: the discovery
document (token_endpoint) and the refresh response. -/
structure HttpEnv where
  token_endpoint : String
  refreshResponse : TokenResponse
  deriving Repr, DecidableEq

/-- Outbound requests, recorded in order. -/
inductive Request where
  | getDiscovery
  | postToken (endpoint grantType refreshTok : String)
  | getApi (url : String) (bearer : String)
  deriving Repr, DecidableEq

/-- api.RedEnergyAPI.BASE_API_URL. -/
def BASE_API_URL : String := "https://selfservice.services.retail.energy/v1"

/-- The token is past its recorded expiry (the source compares with
datetime.now() >= self.token_expires when an expiry is recorded). -/
def isExpired (st : TokenState) (now : ℤ) : Bool :=
  match st.token_expires with
  | some e => now ≥ e
  | none => false

/-- api.RedEnergyAPI._refresh_access_token: discovery, then a POST to the
token endpoint with grant_type refresh_token; on success the access token,
optionally the refresh token, and the expiry are replaced.  The guard is
Python truthiness (if not self refresh token), so an empty-string refresh
token is rejected like an absent one. -/
def refresh_access_token (st : TokenState) (now : ℤ) (env : HttpEnv) :
    List Request × Except APIError TokenState :=
  match st.refresh_token with
  | none => ([], .error (.auth "No refresh token available"))
  | some rt =>
    if rt = "" then ([], .error (.auth "No refresh token available"))
    else
    let reqs := [Request.getDiscovery,
                 Request.postToken env.token_endpoint "refresh_token" rt]
    if !env.refreshResponse.status200 then
      (reqs, .error (.auth "Token refresh failed"))
    else
      (reqs, .ok { access_token := some env.refreshResponse.access_token,
                   refresh_token := match env.refreshResponse.refresh_token with
                                    | some r => some r
                                    | none => st.refresh_token,
                   token_expires := some (now + env.refreshResponse.expires_in.getD 3600) })

/-- api.RedEnergyAPI._ensure_valid_token: no (truthy) access token is an
AuthError; an expired token is refreshed when a truthy refresh token
exists (if self refresh token, so the empty string counts as absent) and
is an AuthError otherwise. -/
def ensure_valid_token (st : TokenState) (now : ℤ) (env : HttpEnv) :
    List Request × Except APIError TokenState :=
  if st.access_token.getD "" = "" then
    ([], .error (.auth "No access token available"))
  else
    match st.token_expires with
    | none => ([], .ok st)
    | some exp =>
      if now ≥ exp then
        if st.refresh_token.getD "" = "" then
          ([], .error (.auth "Token expired and no refresh token available"))
        else refresh_access_token st now env
      else ([], .ok st)

/-- Shared shape of the three data calls: ensure a valid token, then GET
the url with the current access token as bearer. -/
def api_get (url : String) (st : TokenState) (now : ℤ) (env : HttpEnv) :
    List Request × Except APIError (TokenState × Request) :=
  match ensure_valid_token st now env with
  | (reqs, .error e) => (reqs, .error e)
  | (reqs, .ok st2) =>
    let g := Request.getApi url (st2.access_token.getD "")
    (reqs ++ [g], .ok (st2, g))

/-- The three API data calls of api.py that begin with
_ensure_valid_token. -/
inductive DataCall where
  | customer
  | properties
  | usage (consumer_number : String)
  deriving Repr, DecidableEq

/-- The URL each data call GETs (query parameters of the usage call are
not modelled). -/
def dataCallUrl : DataCall → String
  | .customer => BASE_API_URL ++ "/customers/current"
  | .properties => BASE_API_URL ++ "/properties"
  | .usage _ => BASE_API_URL ++ "/usage/interval"

/-- get_customer_data / get_properties / get_usage_data, restricted to
their token handling and request emission. -/
def run_data_call (c : DataCall) (st : TokenState) (now : ℤ) (env : HttpEnv) :
    List Request × Except APIError (TokenState × Request) :=
  api_get (dataCallUrl c) st now env

/-! ### error_recovery.py — CircuitBreaker (lines 492-529) -/

/-- Circuit breaker states (the source uses the strings CLOSED, OPEN,
HALF_OPEN). -/
inductive CBState where
  | closed
  | opened
  | halfOpen
  deriving Repr, DecidableEq

/-- error_recovery.CircuitBreaker. -/
structure CircuitBreaker where
  failure_threshold : ℕ
  recovery_timeout : ℤ
  failure_count : ℕ
  last_failure_time : Option ℤ
  state : CBState
  deriving Repr, DecidableEq

/-- CircuitBreaker.__init__. -/
def mkCircuitBreaker (ft : ℕ) (rt : ℤ) : CircuitBreaker :=
  ⟨ft, rt, 0, none, .closed⟩

/-- CircuitBreaker.record_success. -/
def record_success (cb : CircuitBreaker) : CircuitBreaker :=
  { cb with failure_count := 0, state := .closed }

/-- CircuitBreaker.record_failure at time now. -/
def record_failure (cb : CircuitBreaker) (now : ℤ) : CircuitBreaker :=
  let cb2 := { cb with failure_count := cb.failure_count + 1,
                       last_failure_time := some now }
  if cb2.failure_count ≥ cb2.failure_threshold then { cb2 with state := .opened }
  else cb2

/-- CircuitBreaker.is_open at time now: returns the boolean and the
(possibly updated) breaker, since the check itself moves OPEN to
HALF_OPEN once the recovery timeout has passed. -/
def is_open (cb : CircuitBreaker) (now : ℤ) : Bool × CircuitBreaker :=
  match cb.state, cb.last_failure_time with
  | .opened, some lf =>
    if now - lf > cb.recovery_timeout then (false, { cb with state := .halfOpen })
    else (true, cb)
  | _, _ => (false, cb)

/-- One external operation on a circuit breaker. -/
inductive CBOp where
  | success
  | failure (t : ℤ)
  | check (t : ℤ)
  deriving Repr, DecidableEq

/-- Apply one operation. -/
def cbStep (cb : CircuitBreaker) : CBOp → CircuitBreaker
  | .success => record_success cb
  | .failure t => record_failure cb t
  | .check t => (is_open cb t).2

/-- Run a sequence of operations. -/
def cbRun (cb : CircuitBreaker) (ops : List CBOp) : CircuitBreaker :=
  ops.foldl cbStep cb

/-! ### error_recovery.py — recovery actions and _attempt_recovery
(lines 76-92, 111-183, 240-289) -/

/-- error_recovery.RecoveryStrategy. -/
inductive RecoveryStrategy where
  | retry
  | fallback
  | reset
  | notify
  | ignore
  deriving Repr, DecidableEq

/-- error_recovery.RecoveryAction configuration (the callable itself is
replaced by an outcome supplied alongside, see ActionOutcome). -/
structure RecoveryAction where
  strategy : RecoveryStrategy
  max_attempts : ℕ
  delay : ℚ
  backoff_factor : ℚ
  deriving Repr, DecidableEq

/-- What one execution of a recovery action does: return True, return a
falsy value, or raise. -/
inductive ActionOutcome where
  | succeeds
  | fails
  | raises
  deriving Repr, DecidableEq

/-- Observable events of one _attempt_recovery pass. -/
inductive RecEvent where
  | sleep (d : ℚ)
  | attempt (s : RecoveryStrategy)
  deriving Repr, DecidableEq

/-- The loop body of _attempt_recovery: a single pass over the configured
actions, threading the one shared error_record.recovery_attempts counter.
Returns the emitted events, the final counter, and the success flag. -/
def attemptRecoveryLoop (n : ℕ) :
    List (RecoveryAction × ActionOutcome) → List RecEvent × ℕ × Bool
  | [] => ([], n, false)
  | (a, o) :: rest =>
    if n ≥ a.max_attempts then attemptRecoveryLoop n rest
    else
      let sleeps : List RecEvent :=
        if 0 < n then [.sleep (a.delay * a.backoff_factor ^ n)] else []
      match o with
      | .succeeds => (sleeps ++ [.attempt a.strategy], n + 1, true)
      | .fails =>
        let r := attemptRecoveryLoop (n + 1) rest
        (sleeps ++ [.attempt a.strategy] ++ r.1, r.2)
      | .raises =>
        let r := attemptRecoveryLoop (n + 1) rest
        (sleeps ++ [.attempt a.strategy] ++ r.1, r.2)

/-- error_recovery._attempt_recovery for a fresh ErrorRecord (its
recovery_attempts counter starts at 0); an empty action list reports
failure immediately. -/
def attempt_recovery (acts : List (RecoveryAction × ActionOutcome)) :
    List RecEvent × Bool :=
  match acts with
  | [] => ([], false)
  | _ =>
    let r := attemptRecoveryLoop 0 acts
    (r.1, r.2.2)

/-- The API_CONNECTION policy of _setup_default_recovery_actions: retry
(max 3, 10s base, backoff 2) then fall back to cached data (max 1, with
the constructor defaults delay 5, backoff 2). -/
def apiConnectionActions : List RecoveryAction :=
  [⟨.retry, 3, 10, 2⟩, ⟨.fallback, 1, 5, 2⟩]

/-! ### coordinator.py — _async_update_data usage loop (lines 75-172) -/

/-- coordinator UpdateFailed. -/
inductive UpdateFailed where
  | updateFailed (msg : String)
  deriving Repr, DecidableEq

/-- The per-service block stored under usage_data[property_id].services. -/
structure ServiceUsage where
  consumer_number : String
  usage_data : UsageRecord
  last_updated : String
  deriving Repr, DecidableEq

/-- The per-property block of the snapshot. -/
structure PropertySnapshot where
  property : Property
  services : List (String × ServiceUsage)
  deriving Repr, DecidableEq

/-- The coordinator snapshot returned by a successful update. -/
structure Snapshot where
  customer : Customer
  properties : List Property
  usage_data : List (String × PropertySnapshot)
  last_update : String
  deriving Repr, DecidableEq

/-- Python dict assignment d[k] = v on a dict modelled as an ordered
association list: overwrite in place, else append. -/
def upsert {α : Type} (k : String) (v : α) (l : List (String × α)) : List (String × α) :=
  if l.any (fun p => p.1 = k) then
    l.map (fun p => if p.1 = k then (k, v) else p)
  else l ++ [(k, v)]

/-- Exceptions a usage fetch (get_usage_data) can raise, split by how
the per-service handler of _async_update_data treats them: apiError is a
RedEnergyAPIError (including its subclass RedEnergyAuthError), which the
inner except clause catches; unexpected is any other exception (an
aiohttp error raised by raise_for_status, a timeout), which escapes the
inner handler and reaches the outer except Exception. -/
inductive FetchError where
  | apiError (e : APIError)
  | unexpected (msg : String)
  deriving Repr, DecidableEq

/-- One iteration of the inner service loop of _async_update_data: skip
services without a consumer number, with an unselected type, or inactive;
fetch and validate, skipping the service on RedEnergyAPIError or
DataValidationError; any other exception propagates out of the loop. -/
def usageStep (services : List String)
    (fetch : String → Except FetchError UsagePayload) (now : String)
    (acc : List (String × ServiceUsage)) (s : Service) :
    Except String (List (String × ServiceUsage)) :=
  if s.consumer_number = "" then .ok acc
  else if s.type ∉ services then .ok acc
  else if !s.active then .ok acc
  else match fetch s.consumer_number with
    | .error (.apiError _) => .ok acc
    | .error (.unexpected msg) => .error msg
    | .ok raw =>
      match validate_usage_data raw "" with
      | .error _ => .ok acc
      | .ok rec => .ok (upsert s.type ⟨s.consumer_number, rec, now⟩ acc)

/-- The inner service loop of _async_update_data for one property,
stopping at the first escaping exception. -/
def propertyUsageGo (services : List String)
    (fetch : String → Except FetchError UsagePayload) (now : String) :
    List Service → List (String × ServiceUsage) →
      Except String (List (String × ServiceUsage))
  | [], acc => .ok acc
  | s :: rest, acc =>
    match usageStep services fetch now acc s with
    | .error msg => .error msg
    | .ok acc2 => propertyUsageGo services fetch now rest acc2

/-- The inner service loop of _async_update_data for one property. -/
def propertyUsage (services : List String)
    (fetch : String → Except FetchError UsagePayload) (now : String)
    (svcs : List Service) : Except String (List (String × ServiceUsage)) :=
  propertyUsageGo services fetch now svcs []

/-- One iteration of the outer property loop of _async_update_data. -/
def propStep (selected : List String) (services : List String)
    (fetch : String → Except FetchError UsagePayload) (now : String)
    (acc : List (String × PropertySnapshot)) (p : Property) :
    Except String (List (String × PropertySnapshot)) :=
  if p.id ∉ selected then .ok acc
  else match propertyUsage services fetch now p.services with
    | .error msg => .error msg
    | .ok pu => .ok (if pu.isEmpty then acc else upsert p.id ⟨p, pu⟩ acc)

/-- The outer property loop of _async_update_data, stopping at the first
escaping exception. -/
def updateUsageDataGo (selected : List String) (services : List String)
    (fetch : String → Except FetchError UsagePayload) (now : String) :
    List Property → List (String × PropertySnapshot) →
      Except String (List (String × PropertySnapshot))
  | [], acc => .ok acc
  | p :: rest, acc =>
    match propStep selected services fetch now acc p with
    | .error msg => .error msg
    | .ok acc2 => updateUsageDataGo selected services fetch now rest acc2

/-- The outer property loop of _async_update_data: only selected
properties, and a property enters the snapshot only when at least one of
its services produced data. -/
def updateUsageData (selected : List String) (services : List String)
    (fetch : String → Except FetchError UsagePayload) (now : String)
    (props : List Property) : Except String (List (String × PropertySnapshot)) :=
  updateUsageDataGo selected services fetch now props []

/-- coordinator._async_update_data, from the point where customer and
properties are already fetched and validated (the cached base data):
an exception escaping the per-service handler aborts the cycle through
the outer except Exception clause as UpdateFailed(Unexpected error: ...);
otherwise the cycle fails with UpdateFailed exactly when no service
produced usable data. -/
def async_update_data (customer : Customer) (props : List Property)
    (selected : List String) (services : List String)
    (fetch : String → Except FetchError UsagePayload) (now : String) :
    Except UpdateFailed Snapshot :=
  match updateUsageData selected services fetch now props with
  | .error msg => .error (.updateFailed ("Unexpected error: " ++ msg))
  | .ok ud =>
    if ud.isEmpty then
      .error (.updateFailed "No usage data retrieved for any configured services")
    else
      .ok ⟨customer, props, ud, now⟩

/-! ### Derived notions used by the statements -/

/-- The validated entry produced from one raw day, when its date
survives. -/
def mkEntry (d : RawDay) : Option UsageEntry :=
  (survivorDate d).map (fun s => ⟨s, roundDp 3 (dayUsage d), roundDp 2 (dayCost d), "kWh"⟩)

/-- The raw days whose usageDate survives the truthiness check. -/
def survivors (days : List RawDay) : List RawDay :=
  days.filter (fun d => (survivorDate d).isSome)

/-- The surviving dates, in order. -/
def dates (days : List RawDay) : List String :=
  days.filterMap survivorDate

/-- The running-minimum update performed on from_date for each surviving
date. -/
def minStep (o : Option String) (s : String) : Option String :=
  some (match o with
        | none => s
        | some f => if s < f then s else f)

/-- The running-maximum update performed on to_date for each surviving
date. -/
def maxStep (o : Option String) (s : String) : Option String :=
  some (match o with
        | none => s
        | some f => if f < s then s else f)

/-- A service of a property that the coordinator usage loop can turn into
data: it passes the three skip filters and its fetch and validation both
succeed. -/
def serviceUsable (services : List String)
    (fetch : String → Except FetchError UsagePayload) (s : Service) : Prop :=
  s.consumer_number ≠ "" ∧ s.type ∈ services ∧ s.active = true ∧
  ∃ raw rec, fetch s.consumer_number = .ok raw ∧ validate_usage_data raw "" = .ok rec

/-- A service that passes the three skip filters of the usage loop and
therefore reaches the fetch. -/
def serviceFetched (services : List String) (s : Service) : Prop :=
  s.consumer_number ≠ "" ∧ s.type ∈ services ∧ s.active = true

/-- No fetched service of a selected property raises an exception outside
RedEnergyAPIError / DataValidationError, i.e. the per-service except
clause can catch every failure of this cycle. -/
def noUnexpected (selected services : List String)
    (fetch : String → Except FetchError UsagePayload) (props : List Property) : Prop :=
  ∀ p ∈ props, p.id ∈ selected → ∀ s ∈ p.services, serviceFetched services s →
    ∀ msg, fetch s.consumer_number ≠ .error (.unexpected msg)

/-- Customer record used by the C5 scenario. -/
def c5cust : Customer := ⟨"1", "1", "n", "e", [], [], none⟩

/-- A service whose fetch raises an aiohttp-style exception. -/
def c5bad : Service := ⟨"electricity", "bad", true, "", ""⟩

/-- A service whose fetch and validation succeed. -/
def c5good : Service := ⟨"electricity", "good", true, "", ""⟩

/-- A selected property holding both services, the failing one first. -/
def c5prop : Property :=
  ⟨"1", "1", "P", ⟨"", "", "", "", "", ""⟩, [c5bad, c5good], [""]⟩

/-- The fetch of the C5 scenario: the good consumer returns an empty
usage array, every other fetch raises outside RedEnergyAPIError. -/
def c5fetch : String → Except FetchError UsagePayload :=
  fun c => if c = "good" then .ok (.arr []) else .error (.unexpected "boom")

/-- Raw address of the sample property used in the repository tests. -/
def sampleRawAddress : RawAddress :=
  ⟨some "PRINCE STREET", some "COFFS HARBOUR", none, some "NSW", some "2450",
   none, some ⟨some "Unit 8, 4 Prince Street, Coffs Harbour"⟩⟩

/-- A raw property with one electricity consumer, as in the repository
tests. -/
def sampleRawProperty : RawProperty :=
  ⟨some 84953336, some 8732834, some sampleRawAddress,
   [⟨some "E", some 4373002210, some "ON", some "4407105303", some "INTERVAL"⟩]⟩

/-- The validated image of sampleRawProperty. -/
def sampleProperty : Property :=
  ⟨"84953336", "84953336", "Unit 8, 4 Prince Street, Coffs Harbour",
   ⟨"PRINCE STREET", "COFFS HARBOUR", "NSW", "2450", "", "Unit 8, 4 Prince Street, Coffs Harbour"⟩,
   [⟨"electricity", "4373002210", true, "4407105303", "INTERVAL"⟩],
   ["8732834"]⟩

/-- Days used by the C6 witness. -/
def c6days : List RawDay := [⟨some "2025-08-10", []⟩, ⟨some "2025-08-09", []⟩]

/-- The validated record for c6days. -/
def c6rec : UsageRecord :=
  ⟨"", "2025-08-09", "2025-08-10",
   [⟨"2025-08-10", 0, 0, "kWh"⟩, ⟨"2025-08-09", 0, 0, "kWh"⟩], 0, 0⟩

/-! ## Helper lemmas -/

theorem rhe_nonneg {q : ℚ} (h : 0 ≤ q) : 0 ≤ rhe q := by
  have hf : (0 : ℤ) ≤ Int.floor q := Int.le_floor.mpr (by exact_mod_cast h)
  unfold rhe
  split
  · exact hf
  · split
    · omega
    · split <;> omega

theorem roundDp_nonneg (n : ℕ) {q : ℚ} (h : 0 ≤ q) : 0 ≤ roundDp n q := by
  unfold roundDp
  apply div_nonneg
  · exact_mod_cast rhe_nonneg (by positivity)
  · positivity

theorem minStep_eq (o : Option String) (s : String) :
    (match o with
     | none => some s
     | some f => if s < f then some s else some f) = minStep o s := by
  cases o with
  | none => rfl
  | some f =>
    show (if s < f then some s else some f) = some (if s < f then s else f)
    by_cases hlt : s < f
    · rw [if_pos hlt, if_pos hlt]
    · rw [if_neg hlt, if_neg hlt]

theorem maxStep_eq (o : Option String) (s : String) :
    (match o with
     | none => some s
     | some t => if t < s then some s else some t) = maxStep o s := by
  cases o with
  | none => rfl
  | some t =>
    show (if t < s then some s else some t) = some (if t < s then s else t)
    by_cases hlt : t < s
    · rw [if_pos hlt, if_pos hlt]
    · rw [if_neg hlt, if_neg hlt]

theorem stepDay_skip (acc : UsageAcc) (d : RawDay) (h : survivorDate d = none) :
    stepDay acc d = acc := by
  simp [stepDay, h]

theorem stepDay_surv (acc : UsageAcc) (d : RawDay) (s : String)
    (h : survivorDate d = some s) :
    stepDay acc d =
      ⟨acc.entries ++ [⟨s, roundDp 3 (dayUsage d), roundDp 2 (dayCost d), "kWh"⟩],
       acc.totalU + dayUsage d, acc.totalC + dayCost d,
       minStep acc.fromD s, maxStep acc.toD s⟩ := by
  simp only [stepDay, h]
  rw [UsageAcc.mk.injEq]
  exact ⟨rfl, rfl, rfl, minStep_eq _ _, maxStep_eq _ _⟩

theorem foldl_stepDay (days : List RawDay) : ∀ acc : UsageAcc,
    days.foldl stepDay acc =
      ⟨acc.entries ++ days.filterMap mkEntry,
       acc.totalU + ((survivors days).map dayUsage).sum,
       acc.totalC + ((survivors days).map dayCost).sum,
       (dates days).foldl minStep acc.fromD,
       (dates days).foldl maxStep acc.toD⟩ := by
  induction days with
  | nil => intro acc; simp [survivors, dates]
  | cons d ds ih =>
    intro acc
    cases hs : survivorDate d with
    | none =>
      rw [List.foldl_cons, stepDay_skip _ _ hs, ih]
      simp [survivors, dates, mkEntry, hs, List.filter_cons]
    | some s =>
      rw [List.foldl_cons, stepDay_surv _ _ _ hs, ih]
      simp [survivors, dates, mkEntry, hs, List.filter_cons, add_assoc]

theorem minFold_le_acc : ∀ (ds : List String) (f m : String),
    ds.foldl minStep (some f) = some m → m ≤ f := by
  intro ds
  induction ds with
  | nil => intro f m h; cases h; exact le_refl _
  | cons d ds ih =>
    intro f m h
    rw [List.foldl_cons] at h
    have h' : ds.foldl minStep (some (if d < f then d else f)) = some m := h
    have h2 := ih _ _ h'
    by_cases hd : d < f
    · rw [if_pos hd] at h2; exact le_trans h2 (le_of_lt hd)
    · rw [if_neg hd] at h2; exact h2

theorem minFold_mem : ∀ (ds : List String) (o : Option String) (m : String),
    ds.foldl minStep o = some m → m ∈ ds ∨ o = some m := by
  intro ds
  induction ds with
  | nil => intro o m h; exact Or.inr h
  | cons d ds ih =>
    intro o m h
    rw [List.foldl_cons] at h
    rcases ih _ _ h with hm | hm
    · exact Or.inl (List.mem_cons_of_mem _ hm)
    · cases o with
      | none =>
        simp only [minStep] at hm
        cases hm
        exact Or.inl (List.mem_cons_self _ _)
      | some f =>
        simp only [minStep] at hm
        rcases hm with ⟨hm⟩
        by_cases hd : d < f
        · rw [if_pos hd]; exact Or.inl (List.mem_cons_self _ _)
        · rw [if_neg hd]; exact Or.inr rfl

theorem minFold_le : ∀ (ds : List String) (o : Option String) (m : String),
    ds.foldl minStep o = some m → ∀ x ∈ ds, m ≤ x := by
  intro ds
  induction ds with
  | nil => intro o m _ x hx; cases hx
  | cons d ds ih =>
    intro o m h x hx
    rw [List.foldl_cons] at h
    rcases List.mem_cons.mp hx with rfl | hx2
    · cases o with
      | none => exact minFold_le_acc ds x m h
      | some f =>
        have h' : ds.foldl minStep (some (if x < f then x else f)) = some m := h
        have h2 := minFold_le_acc ds _ _ h'
        by_cases hd : x < f
        · rw [if_pos hd] at h2; exact h2
        · rw [if_neg hd] at h2
          exact le_trans h2 (le_of_not_lt hd)
    · exact ih _ _ h x hx2

theorem maxFold_ge_acc : ∀ (ds : List String) (f m : String),
    ds.foldl maxStep (some f) = some m → f ≤ m := by
  intro ds
  induction ds with
  | nil => intro f m h; cases h; exact le_refl _
  | cons d ds ih =>
    intro f m h
    rw [List.foldl_cons] at h
    have h' : ds.foldl maxStep (some (if f < d then d else f)) = some m := h
    have h2 := ih _ _ h'
    by_cases hd : f < d
    · rw [if_pos hd] at h2; exact le_trans (le_of_lt hd) h2
    · rw [if_neg hd] at h2; exact h2

theorem maxFold_mem : ∀ (ds : List String) (o : Option String) (m : String),
    ds.foldl maxStep o = some m → m ∈ ds ∨ o = some m := by
  intro ds
  induction ds with
  | nil => intro o m h; exact Or.inr h
  | cons d ds ih =>
    intro o m h
    rw [List.foldl_cons] at h
    rcases ih _ _ h with hm | hm
    · exact Or.inl (List.mem_cons_of_mem _ hm)
    · cases o with
      | none =>
        simp only [maxStep] at hm
        cases hm
        exact Or.inl (List.mem_cons_self _ _)
      | some f =>
        simp only [maxStep] at hm
        rcases hm with ⟨hm⟩
        by_cases hd : f < d
        · rw [if_pos hd]; exact Or.inl (List.mem_cons_self _ _)
        · rw [if_neg hd]; exact Or.inr rfl

theorem maxFold_ge : ∀ (ds : List String) (o : Option String) (m : String),
    ds.foldl maxStep o = some m → ∀ x ∈ ds, x ≤ m := by
  intro ds
  induction ds with
  | nil => intro o m _ x hx; cases hx
  | cons d ds ih =>
    intro o m h x hx
    rw [List.foldl_cons] at h
    rcases List.mem_cons.mp hx with rfl | hx2
    · cases o with
      | none => exact maxFold_ge_acc ds x m h
      | some f =>
        have h' : ds.foldl maxStep (some (if f < x then x else f)) = some m := h
        have h2 := maxFold_ge_acc ds _ _ h'
        by_cases hd : f < x
        · rw [if_pos hd] at h2; exact h2
        · rw [if_neg hd] at h2; exact le_trans (le_of_not_lt hd) h2
    · exact ih _ _ h x hx2

theorem minFold_some : ∀ (ds : List String) (f : String),
    ∃ m, ds.foldl minStep (some f) = some m := by
  intro ds
  induction ds with
  | nil => intro f; exact ⟨f, rfl⟩
  | cons d ds ih =>
    intro f
    rw [List.foldl_cons]
    exact ih _

theorem maxFold_some : ∀ (ds : List String) (f : String),
    ∃ m, ds.foldl maxStep (some f) = some m := by
  intro ds
  induction ds with
  | nil => intro f; exact ⟨f, rfl⟩
  | cons d ds ih =>
    intro f
    rw [List.foldl_cons]
    exact ih _

theorem validate_usage_data_arr (days : List RawDay) (cn : String) :
    validate_usage_data (.arr days) cn =
      .ok ⟨cn, ((dates days).foldl minStep none).getD "",
           ((dates days).foldl maxStep none).getD "",
           days.filterMap mkEntry,
           roundDp 2 ((survivors days).map dayUsage).sum,
           roundDp 2 ((survivors days).map dayCost).sum⟩ := by
  simp [validate_usage_data, foldl_stepDay]

/-! ## Claim theorems -/

/-- Claim C2, counterexample: validate_usage_data does not clamp negative
interval values: a day whose single interval has consumptionKwh = -1 and
consumptionDollarIncGst = -2 yields a validated entry with usage = -1 and
cost = -2 and negative aggregate totals, so the non-negativity claim is
false for this function. -/
theorem c2_counterexample :
    validate_usage_data (.arr [⟨some "2025-08-09", [⟨some (-1), some (-2)⟩]⟩]) ""
      = .ok ⟨"", "2025-08-09", "2025-08-09", [⟨"2025-08-09", -1, -2, "kWh"⟩], -1, -2⟩ ∧
    ¬ (0 : ℚ) ≤ -1 := by
  constructor
  · rw [validate_usage_data_arr]
    simp [dates, survivors, mkEntry, survivorDate, dayUsage, dayCost, minStep, maxStep]
    norm_num [roundDp, rhe]
  · norm_num

/-- Claim C2, amended: the clamping invariant holds for
validate_usage_entry (the entry-level validator): whenever it returns an
entry, its usage and cost are non-negative, negative numeric inputs having
been clamped to zero before rounding.  validate_usage_data itself
propagates negative interval values unchanged. -/
theorem c2_entry_clamps_negative :
    ∀ (e : RawUsageEntryIn) (out : UsageEntry),
      validate_usage_entry e = .ok out → 0 ≤ out.usage ∧ 0 ≤ out.cost := by
  rintro ⟨dte, usg, cst, unt⟩ out h
  cases dte with
  | none => simp [validate_usage_entry] at h
  | some ds =>
    by_cases h0 : ds = ""
    · simp [validate_usage_entry, h0] at h
    · by_cases hv : validDate ds
      · cases hu : usg.getD (.num 0) with
        | notNum => simp [validate_usage_entry, h0, hv, hu] at h
        | num u =>
          cases hc : cst.getD (.num 0) with
          | notNum => simp [validate_usage_entry, h0, hv, hu, hc] at h
          | num c =>
            simp only [validate_usage_entry, h0, hv, hu, hc, Bool.not_true,
              Bool.false_eq_true, if_false, ite_false] at h
            injection h with h
            subst h
            constructor
            · apply roundDp_nonneg
              by_cases hn : u < 0
              · rw [if_pos hn]
              · rw [if_neg hn]; exact le_of_not_lt hn
            · apply roundDp_nonneg
              by_cases hn : c < 0
              · rw [if_pos hn]
              · rw [if_neg hn]; exact le_of_not_lt hn
      · simp [validate_usage_entry, h0, hv] at h

/-- Witness for C2: a concrete entry with usage -5 and cost -3 validates
to usage 0 and cost 0, which are non-negative. -/
theorem c2_entry_clamps_negative_witness :
    0 ≤ (UsageEntry.mk "2025-08-09" 0 0 "kWh").usage ∧
    0 ≤ (UsageEntry.mk "2025-08-09" 0 0 "kWh").cost :=
  c2_entry_clamps_negative ⟨some "2025-08-09", some (.num (-5)), some (.num (-3)), none⟩ _
    (by
      have hv : validDate "2025-08-09" = true := rfl
      simp [validate_usage_entry, hv]
      norm_num [roundDp, rhe])

/-- Claim C6: validate_usage_data sums the sub-daily intervals of each
surviving day into one usage/cost pair (per-entry usage rounded to 3
decimal places, cost to 2, aggregates to 2, round-half-to-even via
roundDp), derives from_date/to_date as min/max of the surviving dates,
and on the two-interval scenario 0.241/0.242 kWh at 0.0742 dollars each
produces usage 0.483 and cost 0.15. -/
theorem c6_usage_aggregation :
    (∀ (days : List RawDay) (cn : String) (rec : UsageRecord),
      validate_usage_data (.arr days) cn = .ok rec →
        rec.usage_data = days.filterMap mkEntry ∧
        rec.total_usage = roundDp 2 ((survivors days).map dayUsage).sum ∧
        rec.total_cost = roundDp 2 ((survivors days).map dayCost).sum ∧
        (dates days ≠ [] →
          rec.from_date ∈ dates days ∧ rec.to_date ∈ dates days ∧
          ∀ x ∈ dates days, rec.from_date ≤ x ∧ x ≤ rec.to_date)) ∧
    validate_usage_data (.arr [⟨some "2025-08-09",
        [⟨some (241/1000), some (742/10000)⟩, ⟨some (242/1000), some (742/10000)⟩]⟩]) ""
      = .ok ⟨"", "2025-08-09", "2025-08-09",
             [⟨"2025-08-09", 483/1000, 15/100, "kWh"⟩], 48/100, 15/100⟩ := by
  constructor
  · intro days cn rec h
    rw [validate_usage_data_arr] at h
    injection h with h
    subst h
    refine ⟨rfl, rfl, rfl, ?_⟩
    intro hne
    cases hd : dates days with
    | nil => exact absurd hd hne
    | cons d rest =>
      obtain ⟨mn, hmn⟩ := minFold_some rest d
      obtain ⟨mx, hmx⟩ := maxFold_some rest d
      have hminf : List.foldl minStep none (d :: rest) = some mn := by
        rw [List.foldl_cons]; exact hmn
      have hmaxf : List.foldl maxStep none (d :: rest) = some mx := by
        rw [List.foldl_cons]; exact hmx
      dsimp only
      rw [hminf, hmaxf]
      simp only [Option.getD_some]
      refine ⟨?_, ?_, ?_⟩
      · rcases minFold_mem _ _ _ hminf with hm | hm
        · exact hm
        · cases hm
      · rcases maxFold_mem _ _ _ hmaxf with hm | hm
        · exact hm
        · cases hm
      · intro x hx
        exact ⟨minFold_le _ _ _ hminf x hx, maxFold_ge _ _ _ hmaxf x hx⟩
  · rw [validate_usage_data_arr]
    simp [dates, survivors, mkEntry, survivorDate, dayUsage, dayCost, minStep, maxStep]
    norm_num [roundDp, rhe]

/-- Witness for C6: on two concrete days the derived from_date and
to_date are among the surviving dates. -/
theorem c6_usage_aggregation_witness :
    c6rec.from_date ∈ dates c6days ∧ c6rec.to_date ∈ dates c6days := by
  have hk : validate_usage_data (.arr c6days) "" = .ok c6rec := by
    rw [validate_usage_data_arr]
    simp [c6days, c6rec, dates, survivors, mkEntry, survivorDate, dayUsage, dayCost,
      minStep, maxStep]
    norm_num [roundDp, rhe]
    decide
  have h := (c6_usage_aggregation.1 c6days "" c6rec hk).2.2.2 (by decide)
  exact ⟨h.1, h.2.1⟩

/-- Claim C10: an empty usage list is not fatal: validate_usage_data
returns a record with empty entries, empty from/to dates and zero totals,
whereas an empty properties list raises DataValidationError. -/
theorem c10_empty_usage_not_fatal :
    (∀ cn, validate_usage_data (.arr []) cn = .ok ⟨cn, "", "", [], 0, 0⟩) ∧
    validate_properties_data (.arr []) = .error (.dve "No properties found in response") := by
  constructor
  · intro cn
    rw [validate_usage_data_arr]
    simp [dates, survivors, mkEntry]
    norm_num [roundDp, rhe]
  · rfl

/-- Claim C7: validate_properties_data rejects a non-list and an empty
list with DataValidationError, skips invalid elements individually,
raises when zero elements survive, never returns an empty list, and on a
list of one valid property plus one missing its identifier returns
exactly the one validated property. -/
theorem c7_properties_validation :
    validate_properties_data .notList = .error (.dve "Properties data must be a list") ∧
    validate_properties_data (.arr []) = .error (.dve "No properties found in response") ∧
    (∀ (l : List PropElem),
      (∀ e ∈ l, (validate_single_property e).toOption = none) → l ≠ [] →
        validate_properties_data (.arr l) = .error (.dve "No valid properties after validation")) ∧
    (∀ (l : List PropElem) (e : PropElem), l ≠ [] →
      (validate_single_property e).toOption = none →
        validate_properties_data (.arr (e :: l)) = validate_properties_data (.arr l)) ∧
    (∀ (l : List PropElem) (ps : List Property),
      validate_properties_data (.arr l) = .ok ps → ps ≠ []) ∧
    validate_properties_data (.arr [.obj sampleRawProperty, .obj ⟨none, none, none, []⟩])
      = .ok [sampleProperty] := by
  refine ⟨rfl, rfl, ?_, ?_, ?_, rfl⟩
  · intro l hall hne
    cases l with
    | nil => exact absurd rfl hne
    | cons x xs =>
      have hfm : (x :: xs).filterMap (fun e => (validate_single_property e).toOption) = [] := by
        rw [List.filterMap_eq_nil_iff]
        exact hall
      simp [validate_properties_data, hfm]
  · intro l e hne he
    cases l with
    | nil => exact absurd rfl hne
    | cons x xs =>
      simp [validate_properties_data, List.filterMap_cons, he]
  · intro l ps h
    cases l with
    | nil => cases h
    | cons x xs =>
      simp only [validate_properties_data] at h
      split at h
      · cases h
      · rename_i hne
        injection h with h
        subst h
        intro hemp
        rw [hemp] at hne
        simp at hne

/-- Witness for C7: a one-element list whose only element is not a dict
fails with the zero-survivors error. -/
theorem c7_properties_validation_witness :
    validate_properties_data (.arr [.notDict]) = .error (.dve "No valid properties after validation") :=
  c7_properties_validation.2.2.1 [.notDict]
    (by intro e he; rcases List.mem_singleton.mp he with rfl; rfl)
    (by simp)

/-- Claim C8, counterexample: validate_single_property does not drop a
consumer without a consumerNumber: it keeps the service, with
consumer_number mapped to the empty string, so the validated services
list is not restricted to services with a present, non-empty
consumer_number. -/
theorem c8_counterexample :
    validate_single_property (.obj ⟨some 1, none, none, [⟨none, none, none, none, none⟩]⟩)
      = .ok ⟨"1", "1", "Property 1", ⟨"", "", "", "", "", ""⟩,
             [⟨"", "", false, "", ""⟩], [""]⟩ ∧
    ([(⟨"", "", false, "", ""⟩ : Service)].all (fun s => s.consumer_number != "")) = false :=
  ⟨rfl, rfl⟩

/-- Claim C8, amended: the drop-on-missing-consumer_number behaviour
lives in validate_single_service / validate_services: every service
surviving validate_services has a non-empty consumer_number, and a
service with an absent or empty consumer_number is dropped from the list
without rejecting the rest.  validate_single_property instead keeps every
consumer, mapping a missing consumerNumber to the empty string. -/
theorem c8_service_validation :
    (∀ (l : List ServElem) (b : BasicService),
      b ∈ validate_services (.arr l) → b.consumer_number ≠ "") ∧
    (∀ (l : List ServElem) (s : RawService),
      (s.consumer_number = none ∨ s.consumer_number = some "") →
        validate_services (.arr (.obj s :: l)) = validate_services (.arr l)) := by
  constructor
  · intro l b hb
    simp only [validate_services] at hb
    rw [List.mem_filterMap] at hb
    obtain ⟨e, he, hval⟩ := hb
    cases e with
    | notDict => cases hval
    | obj d =>
      simp only [validate_single_service] at hval
      split at hval
      · cases hval
      · cases hcn : d.consumer_number with
        | none => rw [hcn] at hval; cases hval
        | some c =>
          rw [hcn] at hval
          dsimp only at hval
          by_cases hc : c = ""
          · rw [if_pos hc] at hval; cases hval
          · rw [if_neg hc] at hval
            simp only [Except.toOption] at hval
            injection hval with hval
            subst hval
            exact hc
  · intro l s hs
    have hval : (validate_single_service (.obj s)).toOption = none := by
      simp only [validate_single_service]
      split
      · rfl
      · rcases hs with hs | hs <;> rw [hs] <;> rfl
    simp [validate_services, List.filterMap_cons, hval]

/-- Witness for C8: an electricity service with an absent consumer_number
is dropped from a singleton list, leaving the validation of the empty
list. -/
theorem c8_service_validation_witness :
    validate_services (.arr [.obj ⟨some "electricity", none, none⟩])
      = validate_services (.arr []) :=
  c8_service_validation.2 [] ⟨some "electricity", none, none⟩ (Or.inl rfl)

/-- Claim C9, divergence: a dictionary containing customerNumber but no
accounts key raises KeyError (not DataValidationError, and not a default
substitution) because the required-fields loop sets no default for
accounts before data[accounts] is subscripted; missing name and email do
get their named defaults, and a missing customerNumber raises
DataValidationError. -/
theorem c9_missing_accounts_keyerror :
    validate_customer_data (.dict ⟨some 7053036, none, none, none, none⟩)
      = .error (.keyError "accounts") ∧
    validate_customer_data (.dict ⟨none, some "A", some "B", some [], none⟩)
      = .error (.dve "Missing required customer field: customerNumber") ∧
    validate_customer_data (.dict ⟨some 7053036, none, none,
        some [⟨some 7053036, some 8732834⟩], none⟩)
      = .ok ⟨"7053036", "7053036", "Red Energy Customer", "unknown@redenergy.com.au",
             [⟨some 7053036, some 8732834⟩], ["7053036.8732834"], none⟩ :=
  ⟨rfl, rfl, rfl⟩

/-- Claim C1: every API data call first runs _ensure_valid_token: with no
access token it fails with AuthError and makes no request; with an
expired token and no (truthy) refresh token it fails with AuthError; with
an expired token and a non-empty refresh token it first performs
discovery and the token-endpoint POST with grant_type refresh_token
before any GET; with an unexpired token it proceeds directly with the
bearer GET. -/
theorem c1_token_lifecycle :
    ∀ (c : DataCall) (st : TokenState) (now : ℤ) (env : HttpEnv),
      (st.access_token.getD "" = "" →
        run_data_call c st now env = ([], .error (.auth "No access token available"))) ∧
      (st.access_token.getD "" ≠ "" → isExpired st now = true →
        st.refresh_token.getD "" = "" →
        run_data_call c st now env
          = ([], .error (.auth "Token expired and no refresh token available"))) ∧
      (∀ rt, st.access_token.getD "" ≠ "" → isExpired st now = true →
        st.refresh_token = some rt → rt ≠ "" →
        (run_data_call c st now env).1.take 2
          = [Request.getDiscovery, Request.postToken env.token_endpoint "refresh_token" rt]) ∧
      (st.access_token.getD "" ≠ "" → isExpired st now = false →
        run_data_call c st now env
          = ([Request.getApi (dataCallUrl c) (st.access_token.getD "")],
             .ok (st, Request.getApi (dataCallUrl c) (st.access_token.getD "")))) := by
  intro c st now env
  refine ⟨?_, ?_, ?_, ?_⟩
  · intro h
    simp [run_data_call, api_get, ensure_valid_token, h]
  · intro h1 h2 h3
    simp only [isExpired] at h2
    cases he : st.token_expires with
    | none => rw [he] at h2; cases h2
    | some e =>
      rw [he] at h2
      simp only [run_data_call, api_get, ensure_valid_token, he]
      rw [if_neg h1, if_pos (by exact_mod_cast of_decide_eq_true h2), if_pos h3]
  · intro rt h1 h2 h3 hrt
    simp only [isExpired] at h2
    cases he : st.token_expires with
    | none => rw [he] at h2; cases h2
    | some e =>
      rw [he] at h2
      simp only [run_data_call, api_get, ensure_valid_token, he,
        refresh_access_token, h3]
      rw [if_neg h1, if_pos (by exact_mod_cast of_decide_eq_true h2),
        if_neg (by simpa using hrt), if_neg hrt]
      by_cases hr : env.refreshResponse.status200
      · simp [hr]
      · simp [hr]
  · intro h1 h2
    simp only [isExpired] at h2
    cases he : st.token_expires with
    | none =>
      simp [run_data_call, api_get, ensure_valid_token, he, if_neg h1]
    | some e =>
      rw [he] at h2
      simp only [run_data_call, api_get, ensure_valid_token, he]
      rw [if_neg h1, if_neg (by exact_mod_cast of_decide_eq_false h2)]
      simp

/-- Witness for C1: the branches at concrete token states: no token,
expired with an absent refresh token, expired with an empty-string
refresh token (treated as absent), expired with a real refresh token
(the refresh POST precedes everything), and an unexpired token. -/
theorem c1_token_lifecycle_witness :
    run_data_call .customer ⟨none, none, none⟩ 0
        ⟨"https://login.example/token", ⟨true, "tok2", none, some 3600⟩⟩
      = ([], .error (.auth "No access token available")) ∧
    run_data_call .customer ⟨some "tok", none, some 0⟩ 5
        ⟨"https://login.example/token", ⟨true, "tok2", none, some 3600⟩⟩
      = ([], .error (.auth "Token expired and no refresh token available")) ∧
    run_data_call .customer ⟨some "tok", some "", some 0⟩ 5
        ⟨"https://login.example/token", ⟨true, "tok2", none, some 3600⟩⟩
      = ([], .error (.auth "Token expired and no refresh token available")) ∧
    (run_data_call .customer ⟨some "tok", some "ref", some 0⟩ 5
        ⟨"https://login.example/token", ⟨true, "tok2", none, some 3600⟩⟩).1.take 2
      = [Request.getDiscovery,
         Request.postToken "https://login.example/token" "refresh_token" "ref"] ∧
    run_data_call .customer ⟨some "tok", none, some 10⟩ 5
        ⟨"https://login.example/token", ⟨true, "tok2", none, some 3600⟩⟩
      = ([Request.getApi (dataCallUrl .customer) "tok"],
         .ok (⟨some "tok", none, some 10⟩, Request.getApi (dataCallUrl .customer) "tok")) := by
  refine ⟨?_, ?_, ?_, ?_, ?_⟩
  · exact ((c1_token_lifecycle .customer ⟨none, none, none⟩ 0 _).1 rfl)
  · exact ((c1_token_lifecycle .customer ⟨some "tok", none, some 0⟩ 5 _).2.1
      (by decide) rfl rfl)
  · exact ((c1_token_lifecycle .customer ⟨some "tok", some "", some 0⟩ 5 _).2.1
      (by decide) rfl rfl)
  · exact ((c1_token_lifecycle .customer ⟨some "tok", some "ref", some 0⟩ 5 _).2.2.1 "ref"
      (by decide) rfl rfl (by decide))
  · exact ((c1_token_lifecycle .customer ⟨some "tok", none, some 10⟩ 5 _).2.2.2
      (by decide) rfl)

theorem record_failure_fields (cb : CircuitBreaker) (t : ℤ) :
    (record_failure cb t).failure_count = cb.failure_count + 1 ∧
    (record_failure cb t).last_failure_time = some t ∧
    (record_failure cb t).failure_threshold = cb.failure_threshold ∧
    (record_failure cb t).recovery_timeout = cb.recovery_timeout ∧
    (cb.failure_count + 1 ≥ cb.failure_threshold → (record_failure cb t).state = .opened) ∧
    (cb.failure_count + 1 < cb.failure_threshold → (record_failure cb t).state = cb.state) := by
  unfold record_failure
  by_cases h : cb.failure_count + 1 ≥ cb.failure_threshold
  · rw [if_pos h]
    exact ⟨rfl, rfl, rfl, rfl, fun _ => rfl, fun h2 => absurd h (by omega)⟩
  · rw [if_neg h]
    exact ⟨rfl, rfl, rfl, rfl, fun h2 => absurd h2 h, fun _ => rfl⟩

theorem is_open_fields (cb : CircuitBreaker) (t : ℤ) :
    (is_open cb t).2.failure_count = cb.failure_count ∧
    (is_open cb t).2.failure_threshold = cb.failure_threshold ∧
    (is_open cb t).2.recovery_timeout = cb.recovery_timeout ∧
    (is_open cb t).2.last_failure_time = cb.last_failure_time ∧
    ((is_open cb t).2.state = cb.state ∨
      (cb.state = .opened ∧ (is_open cb t).2.state = .halfOpen)) := by
  unfold is_open
  rcases cb with ⟨ft, rt, fc, lf, st⟩
  cases st <;> cases lf <;> simp
  split <;> simp

theorem cbRun_failures : ∀ (ts : List ℤ) (cb : CircuitBreaker) (t0 : ℤ),
    (cbRun cb ((t0 :: ts).map CBOp.failure)).failure_count
        = cb.failure_count + ts.length + 1 ∧
    (cbRun cb ((t0 :: ts).map CBOp.failure)).last_failure_time = (t0 :: ts).getLast? ∧
    (cbRun cb ((t0 :: ts).map CBOp.failure)).failure_threshold = cb.failure_threshold ∧
    (cbRun cb ((t0 :: ts).map CBOp.failure)).recovery_timeout = cb.recovery_timeout ∧
    (cb.failure_count + ts.length + 1 ≥ cb.failure_threshold →
      (cbRun cb ((t0 :: ts).map CBOp.failure)).state = .opened) := by
  intro ts
  induction ts with
  | nil =>
    intro cb t0
    have h := record_failure_fields cb t0
    simp only [cbRun, List.map_cons, List.map_nil, List.foldl_cons, List.foldl_nil,
      cbStep, List.length_nil]
    refine ⟨?_, ?_, h.2.2.1, h.2.2.2.1, ?_⟩
    · rw [h.1]
    · rw [h.2.1]; rfl
    · intro hge
      exact h.2.2.2.2.1 hge
  | cons t1 ts ih =>
    intro cb t0
    have hstep : cbRun cb ((t0 :: t1 :: ts).map CBOp.failure)
        = cbRun (record_failure cb t0) ((t1 :: ts).map CBOp.failure) := rfl
    have h := record_failure_fields cb t0
    have ihh := ih (record_failure cb t0) t1
    rw [hstep]
    refine ⟨?_, ?_, ?_, ?_, ?_⟩
    · rw [ihh.1, h.1]; simp [List.length_cons]; omega
    · rw [ihh.2.1, List.getLast?_cons_cons]
    · rw [ihh.2.2.1, h.2.2.1]
    · rw [ihh.2.2.2.1, h.2.2.2.1]
    · intro hge
      apply ihh.2.2.2.2
      rw [h.1, h.2.2.1]
      simp only [List.length_cons] at hge
      omega

theorem cbStep_inv (cb : CircuitBreaker) (op : CBOp)
    (h : cb.state ≠ .closed → cb.failure_count ≥ cb.failure_threshold) :
    (cbStep cb op).state ≠ .closed →
      (cbStep cb op).failure_count ≥ (cbStep cb op).failure_threshold := by
  cases op with
  | success => intro hs; exact absurd rfl hs
  | failure t =>
    intro hs
    have hf := record_failure_fields cb t
    rw [cbStep] at hs ⊢
    rw [hf.1, hf.2.2.1]
    by_cases hge : cb.failure_count + 1 ≥ cb.failure_threshold
    · omega
    · rw [hf.2.2.2.2.2 (by omega)] at hs
      have := h hs
      omega
  | check t =>
    intro hs
    have hf := is_open_fields cb t
    rw [cbStep] at hs ⊢
    rw [hf.1, hf.2.1]
    rcases hf.2.2.2.2 with hsame | ⟨hop, _⟩
    · exact h (by rw [hsame] at hs; exact hs)
    · exact h (by rw [hop]; simp)

theorem cbRun_inv : ∀ (ops : List CBOp) (cb : CircuitBreaker),
    (cb.state ≠ .closed → cb.failure_count ≥ cb.failure_threshold) →
    ((cbRun cb ops).state ≠ .closed →
      (cbRun cb ops).failure_count ≥ (cbRun cb ops).failure_threshold) := by
  intro ops
  induction ops with
  | nil => intro cb h; exact h
  | cons op ops ih =>
    intro cb h
    exact ih (cbStep cb op) (cbStep_inv cb op h)

/-- Claim C4: the circuit breaker transitions: failure_threshold
consecutive record_failure calls make is_open true (within the recovery
timeout of the last failure); once strictly more than recovery_timeout
has elapsed since the last failure, the next is_open returns false and
moves the state to HALF_OPEN; record_success resets any state to CLOSED
with failure_count 0; and from any reachable HALF_OPEN state a
record_failure returns the breaker to OPEN. -/
theorem c4_circuit_breaker :
    (∀ (cb : CircuitBreaker) (ts : List ℤ) (t0 t lf : ℤ),
      (t0 :: ts).length = cb.failure_threshold →
      (t0 :: ts).getLast? = some lf →
      t - lf ≤ cb.recovery_timeout →
      (is_open (cbRun cb ((t0 :: ts).map CBOp.failure)) t).1 = true) ∧
    (∀ (cb : CircuitBreaker) (t lf : ℤ), cb.state = .opened →
      cb.last_failure_time = some lf → cb.recovery_timeout < t - lf →
      is_open cb t = (false, { cb with state := .halfOpen })) ∧
    (∀ cb : CircuitBreaker,
      (record_success cb).state = .closed ∧ (record_success cb).failure_count = 0) ∧
    (∀ (ft : ℕ) (rt : ℤ) (ops : List CBOp) (t : ℤ),
      (cbRun (mkCircuitBreaker ft rt) ops).state = .halfOpen →
      (record_failure (cbRun (mkCircuitBreaker ft rt) ops) t).state = .opened) := by
  refine ⟨?_, ?_, ?_, ?_⟩
  · intro cb ts t0 t lf hlen hlast hle
    have h := cbRun_failures ts cb t0
    have hst : (cbRun cb ((t0 :: ts).map CBOp.failure)).state = .opened := by
      apply h.2.2.2.2
      simp only [List.length_cons] at hlen
      omega
    have hlf2 : (cbRun cb ((t0 :: ts).map CBOp.failure)).last_failure_time = some lf := by
      rw [h.2.1]; exact hlast
    have hrt : (cbRun cb ((t0 :: ts).map CBOp.failure)).recovery_timeout
        = cb.recovery_timeout := h.2.2.2.1
    unfold is_open
    simp only [hst, hlf2, hrt]
    rw [if_neg (by omega)]
  · intro cb t lf hop hlf hlt
    unfold is_open
    simp only [hop, hlf]
    rw [if_pos (by omega)]
  · intro cb
    exact ⟨rfl, rfl⟩
  · intro ft rt ops t hho
    have hinv := cbRun_inv ops (mkCircuitBreaker ft rt) (fun hc => absurd rfl hc)
    have hge := hinv (by rw [hho]; simp)
    have hf := record_failure_fields (cbRun (mkCircuitBreaker ft rt) ops) t
    exact hf.2.2.2.2.1 (by omega)

/-- Witness for C4: with threshold 2 and timeout 300, two failures open
the breaker at time 100; an open breaker past the timeout half-opens; a
success closes; and a failure in a reachable HALF_OPEN state reopens. -/
theorem c4_circuit_breaker_witness :
    (is_open (cbRun (mkCircuitBreaker 2 300) ([10, 20].map CBOp.failure)) 100).1 = true ∧
    is_open ⟨2, 300, 2, some 0, .opened⟩ 301
      = (false, ⟨2, 300, 2, some 0, .halfOpen⟩) ∧
    (record_success ⟨2, 300, 2, some 0, .opened⟩).state = .closed ∧
    (record_success ⟨2, 300, 2, some 0, .opened⟩).failure_count = 0 ∧
    (record_failure (cbRun (mkCircuitBreaker 2 300) [.failure 0, .failure 1, .check 400]) 401).state
      = .opened := by
  refine ⟨?_, ?_, ?_, ?_, ?_⟩
  · exact c4_circuit_breaker.1 (mkCircuitBreaker 2 300) [20] 10 100 20 rfl rfl (by decide)
  · exact c4_circuit_breaker.2.1 ⟨2, 300, 2, some 0, .opened⟩ 301 0 rfl rfl (by decide)
  · exact (c4_circuit_breaker.2.2.1 ⟨2, 300, 2, some 0, .opened⟩).1
  · exact (c4_circuit_breaker.2.2.1 ⟨2, 300, 2, some 0, .opened⟩).2
  · exact c4_circuit_breaker.2.2.2 2 300 [.failure 0, .failure 1, .check 400] 401 (by rfl)


theorem attemptRecoveryLoop_all_fail :
    ∀ (acts : List (RecoveryAction × ActionOutcome)) (n : ℕ),
      (∀ p ∈ acts, p.2 ≠ .succeeds) → (attemptRecoveryLoop n acts).2.2 = false := by
  intro acts
  induction acts with
  | nil => intro n _; rfl
  | cons p rest ih =>
    intro n hall
    obtain ⟨a, o⟩ := p
    rw [attemptRecoveryLoop]
    by_cases hge : n ≥ a.max_attempts
    · rw [if_pos hge]
      exact ih n (fun q hq => hall q (List.mem_cons_of_mem _ hq))
    · rw [if_neg hge]
      cases o with
      | succeeds => exact absurd rfl (hall (a, .succeeds) (List.mem_cons_self _ _))
      | fails => exact ih (n + 1) (fun q hq => hall q (List.mem_cons_of_mem _ hq))
      | raises => exact ih (n + 1) (fun q hq => hall q (List.mem_cons_of_mem _ hq))

/-- Claim C3, counterexample: for an API_CONNECTION error whose retry
action fails on its first attempt, the fall-back-to-cached-data action
(max_attempts 1) is NOT attempted: the shared recovery_attempts counter
is already 1, so the fallback is skipped and recovery reports failure
even though the fallback would have succeeded. -/
theorem c3_counterexample :
    attempt_recovery (apiConnectionActions.zip [.fails, .succeeds])
      = ([RecEvent.attempt .retry], false) ∧
    RecEvent.attempt RecoveryStrategy.fallback ∉ [RecEvent.attempt RecoveryStrategy.retry] := by
  refine ⟨rfl, ?_⟩
  intro hmem
  rcases List.mem_singleton.mp hmem with h
  cases h

/-- Claim C3, amended: _attempt_recovery makes a single pass over the
ordered actions of the error_type, comparing each action against the one
shared error_record.recovery_attempts counter (not a per-action counter):
an action is skipped once the shared counter has reached its
max_attempts; before an attempt with shared counter N greater than 0 it sleeps
base_delay times backoff_multiplier to the N; recovery reports failure when no
attempted action succeeded; and for the API_CONNECTION policy a failed
first retry leaves the fallback skipped. -/
theorem c3_recovery_shared_counter :
    (∀ (n : ℕ) (a : RecoveryAction) (o : ActionOutcome)
        (rest : List (RecoveryAction × ActionOutcome)),
      n ≥ a.max_attempts →
        attemptRecoveryLoop n ((a, o) :: rest) = attemptRecoveryLoop n rest) ∧
    (∀ (n : ℕ) (a : RecoveryAction) (o : ActionOutcome)
        (rest : List (RecoveryAction × ActionOutcome)),
      n < a.max_attempts → 0 < n →
        ((attemptRecoveryLoop n ((a, o) :: rest)).1).head?
          = some (.sleep (a.delay * a.backoff_factor ^ n))) ∧
    (∀ (a : RecoveryAction) (o : ActionOutcome)
        (rest : List (RecoveryAction × ActionOutcome)),
      0 < a.max_attempts →
        ((attemptRecoveryLoop 0 ((a, o) :: rest)).1).head? = some (.attempt a.strategy)) ∧
    (∀ acts : List (RecoveryAction × ActionOutcome),
      (∀ p ∈ acts, p.2 ≠ .succeeds) → (attempt_recovery acts).2 = false) ∧
    attempt_recovery (apiConnectionActions.zip [.fails, .succeeds])
      = ([RecEvent.attempt .retry], false) := by
  refine ⟨?_, ?_, ?_, ?_, rfl⟩
  · intro n a o rest h
    rw [attemptRecoveryLoop, if_pos h]
  · intro n a o rest hlt hpos
    rw [attemptRecoveryLoop, if_neg (not_le.mpr hlt)]
    cases o <;> simp [hpos]
  · intro a o rest hlt
    rw [attemptRecoveryLoop, if_neg (not_le.mpr hlt)]
    cases o <;> simp
  · intro acts hall
    cases acts with
    | nil => rfl
    | cons p rest =>
      exact attemptRecoveryLoop_all_fail (p :: rest) 0 hall

/-- Witness for C3: concrete skip, sleep, first-attempt and all-fail
instances of the recovery loop. -/
theorem c3_recovery_shared_counter_witness :
    attemptRecoveryLoop 1 [(⟨.fallback, 1, 5, 2⟩, .succeeds)] = attemptRecoveryLoop 1 [] ∧
    (attemptRecoveryLoop 1 [(⟨.retry, 3, 10, 2⟩, .fails)]).1.head?
      = some (.sleep (10 * 2 ^ 1)) ∧
    (attemptRecoveryLoop 0 [(⟨.retry, 3, 10, 2⟩, .fails)]).1.head?
      = some (.attempt .retry) ∧
    (attempt_recovery [(⟨.retry, 3, 10, 2⟩, .fails)]).2 = false := by
  refine ⟨?_, ?_, ?_, ?_⟩
  · exact c3_recovery_shared_counter.1 1 ⟨.fallback, 1, 5, 2⟩ .succeeds [] (by decide)
  · exact c3_recovery_shared_counter.2.1 1 ⟨.retry, 3, 10, 2⟩ .fails [] (by decide) (by decide)
  · exact c3_recovery_shared_counter.2.2.1 ⟨.retry, 3, 10, 2⟩ .fails [] (by decide)
  · exact c3_recovery_shared_counter.2.2.2.1 [(⟨.retry, 3, 10, 2⟩, .fails)] (by decide)




theorem upsert_ne_nil {α : Type} (k : String) (v : α) (l : List (String × α)) :
    upsert k v l ≠ [] := by
  unfold upsert
  split
  · rename_i hany
    cases l with
    | nil => simp at hany
    | cons x xs => simp
  · simp

theorem usageStep_skip (services : List String)
    (fetch : String → Except FetchError UsagePayload) (now : String)
    (acc : List (String × ServiceUsage)) (s : Service)
    (hb : serviceFetched services s →
      ∀ msg, fetch s.consumer_number ≠ .error (.unexpected msg))
    (h : ¬ serviceUsable services fetch s) :
    usageStep services fetch now acc s = .ok acc := by
  unfold usageStep
  by_cases h1 : s.consumer_number = ""
  · rw [if_pos h1]
  · rw [if_neg h1]
    by_cases h2 : s.type ∈ services
    · rw [if_neg (by simp [h2])]
      by_cases h3 : s.active
      · rw [if_neg (by simp [h3])]
        cases hf : fetch s.consumer_number with
        | error fe =>
          cases fe with
          | apiError e => rfl
          | unexpected msg => exact absurd hf (hb ⟨h1, h2, h3⟩ msg)
        | ok raw =>
          cases hv : validate_usage_data raw "" with
          | error e => simp only [hv]
          | ok rec =>
            exact absurd ⟨h1, h2, h3, raw, rec, hf, hv⟩ h
      · rw [if_pos (by simp [h3])]
    · rw [if_pos (by simp [h2])]

theorem usageStep_usable (services : List String)
    (fetch : String → Except FetchError UsagePayload) (now : String)
    (acc : List (String × ServiceUsage)) (s : Service)
    (h : serviceUsable services fetch s) :
    ∃ l, usageStep services fetch now acc s = .ok l ∧ l ≠ [] := by
  obtain ⟨h1, h2, h3, raw, rec, hf, hv⟩ := h
  unfold usageStep
  rw [if_neg h1, if_neg (by simp [h2]), if_neg (by simp [h3])]
  simp only [hf, hv]
  exact ⟨_, rfl, upsert_ne_nil _ _ _⟩

theorem propertyUsageGo_spec (services : List String)
    (fetch : String → Except FetchError UsagePayload) (now : String) :
    ∀ (svcs : List Service) (acc : List (String × ServiceUsage)),
      (∀ s ∈ svcs, serviceFetched services s →
        ∀ msg, fetch s.consumer_number ≠ .error (.unexpected msg)) →
      ∃ l, propertyUsageGo services fetch now svcs acc = .ok l ∧
        (l = [] ↔ acc = [] ∧ ∀ s ∈ svcs, ¬ serviceUsable services fetch s) := by
  intro svcs
  induction svcs with
  | nil =>
    intro acc _
    exact ⟨acc, rfl, by simp⟩
  | cons s rest ih =>
    intro acc hb
    have hbs := hb s (List.mem_cons_self _ _)
    have hbrest : ∀ x ∈ rest, serviceFetched services x →
        ∀ msg, fetch x.consumer_number ≠ .error (.unexpected msg) :=
      fun x hx => hb x (List.mem_cons_of_mem _ hx)
    by_cases hu : serviceUsable services fetch s
    · obtain ⟨l1, hl1, hl1ne⟩ := usageStep_usable services fetch now acc s hu
      obtain ⟨l, hgo, hiff⟩ := ih l1 hbrest
      refine ⟨l, ?_, ?_⟩
      · rw [propertyUsageGo, hl1]
        exact hgo
      · constructor
        · intro hl
          exact absurd ((hiff.mp hl).1) hl1ne
        · rintro ⟨_, hall⟩
          exact absurd hu (hall s (List.mem_cons_self _ _))
    · rw [propertyUsageGo, usageStep_skip services fetch now acc s hbs hu]
      obtain ⟨l, hgo, hiff⟩ := ih acc hbrest
      refine ⟨l, hgo, ?_⟩
      rw [hiff]
      constructor
      · rintro ⟨hacc, hall⟩
        refine ⟨hacc, ?_⟩
        intro x hx
        rcases List.mem_cons.mp hx with rfl | hx2
        · exact hu
        · exact hall x hx2
      · rintro ⟨hacc, hall⟩
        exact ⟨hacc, fun x hx => hall x (List.mem_cons_of_mem _ hx)⟩

theorem propStep_spec (selected services : List String)
    (fetch : String → Except FetchError UsagePayload) (now : String)
    (acc : List (String × PropertySnapshot)) (p : Property)
    (hb : p.id ∈ selected → ∀ s ∈ p.services, serviceFetched services s →
      ∀ msg, fetch s.consumer_number ≠ .error (.unexpected msg)) :
    ∃ l, propStep selected services fetch now acc p = .ok l ∧
      (l = [] ↔ acc = [] ∧ (p.id ∈ selected →
        ∀ s ∈ p.services, ¬ serviceUsable services fetch s)) := by
  by_cases hsel : p.id ∈ selected
  · obtain ⟨pu, hpu, hpuiff⟩ :=
      propertyUsageGo_spec services fetch now p.services [] (hb hsel)
    have hpu2 : propertyUsage services fetch now p.services = .ok pu := hpu
    unfold propStep
    rw [if_neg (by simp [hsel]), hpu2]
    by_cases hemp : pu = []
    · refine ⟨acc, by simp [List.isEmpty_iff, hemp], ?_⟩
      constructor
      · intro hacc
        exact ⟨hacc, fun _ => (hpuiff.mp hemp).2⟩
      · rintro ⟨hacc, _⟩
        exact hacc
    · refine ⟨upsert p.id ⟨p, pu⟩ acc, by simp [List.isEmpty_iff, hemp], ?_⟩
      constructor
      · intro hl
        exact absurd hl (upsert_ne_nil _ _ _)
      · rintro ⟨_, hall⟩
        exact absurd (hpuiff.mpr ⟨rfl, hall hsel⟩) hemp
  · refine ⟨acc, ?_, ?_⟩
    · unfold propStep
      rw [if_pos (by simp [hsel])]
    · constructor
      · intro hacc
        exact ⟨hacc, fun hs => absurd hs hsel⟩
      · rintro ⟨hacc, _⟩
        exact hacc

theorem updateUsageDataGo_spec (selected services : List String)
    (fetch : String → Except FetchError UsagePayload) (now : String) :
    ∀ (props : List Property) (acc : List (String × PropertySnapshot)),
      (∀ p ∈ props, p.id ∈ selected → ∀ s ∈ p.services, serviceFetched services s →
        ∀ msg, fetch s.consumer_number ≠ .error (.unexpected msg)) →
      ∃ l, updateUsageDataGo selected services fetch now props acc = .ok l ∧
        (l = [] ↔ acc = [] ∧ ∀ p ∈ props, p.id ∈ selected →
          ∀ s ∈ p.services, ¬ serviceUsable services fetch s) := by
  intro props
  induction props with
  | nil =>
    intro acc _
    exact ⟨acc, rfl, by simp⟩
  | cons p rest ih =>
    intro acc hb
    have hbp := hb p (List.mem_cons_self _ _)
    have hbrest : ∀ x ∈ rest, x.id ∈ selected → ∀ s ∈ x.services,
        serviceFetched services s →
        ∀ msg, fetch s.consumer_number ≠ .error (.unexpected msg) :=
      fun x hx => hb x (List.mem_cons_of_mem _ hx)
    obtain ⟨l1, hl1, hl1iff⟩ := propStep_spec selected services fetch now acc p hbp
    obtain ⟨l, hgo, hiff⟩ := ih l1 hbrest
    refine ⟨l, ?_, ?_⟩
    · rw [updateUsageDataGo, hl1]
      exact hgo
    · rw [hiff, hl1iff]
      constructor
      · rintro ⟨⟨hacc, hp⟩, hall⟩
        refine ⟨hacc, ?_⟩
        intro x hx
        rcases List.mem_cons.mp hx with rfl | hx2
        · exact hp
        · exact hall x hx2
      · rintro ⟨hacc, hall⟩
        exact ⟨⟨hacc, hall p (List.mem_cons_self _ _)⟩,
               fun x hx => hall x (List.mem_cons_of_mem _ hx)⟩


/-- Claim C5, counterexample: a single service whose fetch raises
outside RedEnergyAPIError / DataValidationError (an aiohttp error or
timeout from get_usage_data) is not skipped: it escapes the per-service
handler and aborts the whole cycle through the outer except Exception
clause, even though the same property has another service that is usable
(fetch and validation succeed), so the cycle errors with the Unexpected
error message rather than publishing that data — refuting both the
never-aborts conjunct and the claimed iff. -/
theorem c5_counterexample :
    async_update_data c5cust [c5prop] ["1"] ["electricity"] c5fetch "t"
      = .error (.updateFailed "Unexpected error: boom") ∧
    c5fetch "good" = .ok (.arr []) ∧
    validate_usage_data (.arr []) "" = .ok ⟨"", "", "", [], 0, 0⟩ ∧
    serviceUsable ["electricity"] c5fetch c5good ∧
    c5good ∈ c5prop.services := by
  refine ⟨rfl, rfl, ?_, ?_, ?_⟩
  · rw [validate_usage_data_arr]
    simp [dates, survivors, mkEntry]
    norm_num [roundDp, rhe]
  · refine ⟨by decide, by decide, rfl, .arr [], ⟨"", "", "", [], 0, 0⟩, rfl, ?_⟩
    rw [validate_usage_data_arr]
    simp [dates, survivors, mkEntry]
    norm_num [roundDp, rhe]
  · decide

/-- Claim C5, amended: a single service's RedEnergyAPIError (including
auth errors) or DataValidationError is logged and skipped without
aborting the cycle, and, provided no fetched service of a selected
property raises outside those classes, the cycle raises UpdateFailed
exactly when no selected service produced usable usage data; an
exception outside those classes aborts the whole cycle, so every error
the usage loop raises is either the no-data UpdateFailed or an
Unexpected-error UpdateFailed. -/
theorem c5_partial_failure_tolerance :
    (∀ (customer : Customer) (props : List Property) (selected services : List String)
        (fetch : String → Except FetchError UsagePayload) (now : String),
      noUnexpected selected services fetch props →
      (∀ p ∈ props, p.id ∈ selected → ∀ s ∈ p.services, ¬ serviceUsable services fetch s) →
        async_update_data customer props selected services fetch now
          = .error (.updateFailed "No usage data retrieved for any configured services")) ∧
    (∀ (customer : Customer) (props : List Property) (selected services : List String)
        (fetch : String → Except FetchError UsagePayload) (now : String)
        (p : Property) (s : Service),
      noUnexpected selected services fetch props →
      p ∈ props → p.id ∈ selected → s ∈ p.services → serviceUsable services fetch s →
        ∃ snap, async_update_data customer props selected services fetch now = .ok snap) ∧
    (∀ (customer : Customer) (props : List Property) (selected services : List String)
        (fetch : String → Except FetchError UsagePayload) (now : String) (e : UpdateFailed),
      async_update_data customer props selected services fetch now = .error e →
        e = .updateFailed "No usage data retrieved for any configured services" ∨
        ∃ msg, e = .updateFailed ("Unexpected error: " ++ msg)) := by
  refine ⟨?_, ?_, ?_⟩
  · intro customer props selected services fetch now hben hall
    obtain ⟨l, hgo, hiff⟩ := updateUsageDataGo_spec selected services fetch now props [] hben
    have hud : updateUsageData selected services fetch now props = .ok [] := by
      rw [updateUsageData, hgo, hiff.mpr ⟨rfl, hall⟩]
    unfold async_update_data
    rw [hud]
    rfl
  · intro customer props selected services fetch now p s hben hp hps hs husable
    obtain ⟨l, hgo, hiff⟩ := updateUsageDataGo_spec selected services fetch now props [] hben
    have hud : updateUsageData selected services fetch now props = .ok l := hgo
    have hlne : l ≠ [] := by
      intro hl
      exact absurd husable (((hiff.mp hl).2 p hp hps) s hs)
    refine ⟨⟨customer, props, l, now⟩, ?_⟩
    unfold async_update_data
    rw [hud]
    simp [List.isEmpty_iff, hlne]
  · intro customer props selected services fetch now e h
    cases hud : updateUsageData selected services fetch now props with
    | error msg =>
      simp only [async_update_data, hud] at h
      injection h with h
      exact Or.inr ⟨msg, h.symm⟩
    | ok ud =>
      simp only [async_update_data, hud] at h
      by_cases hemp : ud.isEmpty
      · rw [if_pos hemp] at h
        injection h with h
        exact Or.inl h.symm
      · rw [if_neg hemp] at h
        cases h

/-- Witness for C5: with no properties at all, the cycle fails with the
no-data UpdateFailed message. -/
theorem c5_partial_failure_tolerance_witness :
    async_update_data ⟨"1", "1", "n", "e", [], [], none⟩ [] [] []
        (fun _ => .error (.apiError (.api "down"))) "t"
      = .error (.updateFailed "No usage data retrieved for any configured services") :=
  c5_partial_failure_tolerance.1 ⟨"1", "1", "n", "e", [], [], none⟩ [] [] []
    (fun _ => .error (.apiError (.api "down"))) "t"
    (by intro p hp; cases hp) (by intro p hp; cases hp)

end RedEnergy
